import Mathlib

/-!
Verification development for the bytecode virtual machine in
`runtime/vm.go`.  The value model, the dispatch-loop state, and the
opcode branches that the properties below concern are embedded as
executable Lean definitions; machine integers (Go `int` / `int64`) are
modelled as `Int`, Go slices as `List` with explicit bounds-checked
access (an out-of-range access is a Go runtime panic, modelled as a
distinguished `fatal` result).
-/

namespace TengoVM

/-- `StackSize` is the maximum stack size (vm.go line 16). -/
def StackSize : Int := 2048

/-- `GlobalsSize` is the maximum number of global variables (vm.go line 19). -/
def GlobalsSize : Int := 1024

/-- `MaxFrames` is the maximum number of function frames (vm.go line 22). -/
def MaxFrames : Int := 1024

/-!
Modelled from the spec: the opcode byte values live in the compiler
package (not under src/); per the spec the VM and the compiler share a
single enumeration and the concrete byte values are immaterial, only
their distinctness matters.  We fix one distinct assignment.
-/

namespace Opcode

@[simp] def opConstant : Nat := 0
@[simp] def opAdd : Nat := 1
@[simp] def opSub : Nat := 2
@[simp] def opMul : Nat := 3
@[simp] def opDiv : Nat := 4
@[simp] def opRem : Nat := 5
@[simp] def opBAnd : Nat := 6
@[simp] def opBOr : Nat := 7
@[simp] def opBXor : Nat := 8
@[simp] def opBShiftLeft : Nat := 9
@[simp] def opBShiftRight : Nat := 10
@[simp] def opBAndNot : Nat := 11
@[simp] def opBComplement : Nat := 12
@[simp] def opPop : Nat := 13
@[simp] def opTrue : Nat := 14
@[simp] def opFalse : Nat := 15
@[simp] def opEqual : Nat := 16
@[simp] def opNotEqual : Nat := 17
@[simp] def opGreaterThan : Nat := 18
@[simp] def opGreaterThanEqual : Nat := 19
@[simp] def opMinus : Nat := 20
@[simp] def opLNot : Nat := 21
@[simp] def opJumpFalsy : Nat := 22
@[simp] def opAndJump : Nat := 23
@[simp] def opOrJump : Nat := 24
@[simp] def opJump : Nat := 25
@[simp] def opNull : Nat := 26
@[simp] def opGetGlobal : Nat := 27
@[simp] def opSetGlobal : Nat := 28
@[simp] def opSetSelGlobal : Nat := 29
@[simp] def opArray : Nat := 30
@[simp] def opMap : Nat := 31
@[simp] def opError : Nat := 32
@[simp] def opImmutable : Nat := 33
@[simp] def opIndex : Nat := 34
@[simp] def opSliceIndex : Nat := 35
@[simp] def opCall : Nat := 36
@[simp] def opReturn : Nat := 37
@[simp] def opReturnValue : Nat := 38
@[simp] def opGetLocal : Nat := 39
@[simp] def opSetLocal : Nat := 40
@[simp] def opDefineLocal : Nat := 41
@[simp] def opSetSelLocal : Nat := 42
@[simp] def opGetBuiltin : Nat := 43
@[simp] def opGetBuiltinModule : Nat := 44
@[simp] def opClosure : Nat := 45
@[simp] def opGetFree : Nat := 46
@[simp] def opSetFree : Nat := 47
@[simp] def opSetSelFree : Nat := 48
@[simp] def opIteratorInit : Nat := 49
@[simp] def opIteratorNext : Nat := 50
@[simp] def opIteratorKey : Nat := 51
@[simp] def opIteratorValue : Nat := 52

/-- Opcodes whose dispatch branches exist in vm.go but are not needed by
any of the verified properties; executing one yields the distinguished
`unmodelled` step result (see `StepResult`). -/
def unmodelledOps : List Nat :=
  [opAdd, opSub, opMul, opDiv, opRem, opBAnd, opBOr, opBXor,
   opBShiftLeft, opBShiftRight, opBAndNot, opBComplement, opTrue, opFalse,
   opEqual, opNotEqual, opGreaterThan, opGreaterThanEqual, opMinus, opLNot,
   opJumpFalsy, opAndJump, opOrJump, opJump, opNull, opGetGlobal,
   opSetGlobal, opSetSelGlobal, opArray, opError, opImmutable, opIndex,
   opGetLocal, opSetLocal, opDefineLocal, opSetSelLocal, opGetBuiltin,
   opGetBuiltinModule, opGetFree, opSetFree, opSetSelFree, opIteratorInit,
   opIteratorNext, opIteratorKey, opIteratorValue]

end Opcode

/-- `objects.CompiledFunction` (reachable from the bytecode constants).
The `fid` field models the Go pointer identity of the allocation: the
source compares compiled functions with pointer equality (`==` on
`*objects.CompiledFunction`), and distinct allocations have distinct
addresses.  `sourceMap` models the `SourceMap map[int]source.Pos`
(absent keys yield the zero position); a position is abstracted to
the `Nat` the file-set formatter would print. -/
structure CompiledFunction where
  fid : Nat
  instructions : List Nat
  numLocals : Int
  numParameters : Int
  sourceMap : List (Int × Nat)

instance : Inhabited CompiledFunction := ⟨⟨0, [], 0, 0, []⟩⟩

/-- `objects.Object`: the closed sum of runtime values (spec section 3;
the objects package itself is not under src/, so the variant list is
modelled from the spec).  Payloads not exercised by any verified
property (float bits, iterator state, builtin body) are opaque ids.
Go strings are byte sequences; we model the text payload as a Lean
`String` (identical for the ASCII programs of the spec scenarios). -/
inductive Object where
  | int (value : Int)
  | float (bits : Nat)
  | bool (value : Bool)
  | char (value : Char)
  | str (value : String)
  | bytes (value : List Nat)
  | undefined
  | array (value : List Object)
  | immutableArray (value : List Object)
  | map (value : List (String × Object))
  | immutableMap (value : List (String × Object))
  | error (value : Object)
  | compiledFunction (fn : CompiledFunction)
  | closure (fn : CompiledFunction) (free : List Object)
  | builtin (name : String) (bid : Nat)
  | iterator (iid : Nat)

/-- Modelled from the spec: the `TypeName` strings of the objects
package (used only inside error messages). -/
def typeName : Object → String
  | .int _ => "int"
  | .float _ => "float"
  | .bool _ => "bool"
  | .char _ => "char"
  | .str _ => "string"
  | .bytes _ => "bytes"
  | .undefined => "undefined"
  | .array _ => "array"
  | .immutableArray _ => "immutable-array"
  | .map _ => "map"
  | .immutableMap _ => "immutable-map"
  | .error _ => "error"
  | .compiledFunction _ => "compiled-function"
  | .closure _ _ => "closure"
  | .builtin _ _ => "builtin-function"
  | .iterator _ => "iterator"

/-- A call frame (`runtime.Frame`): function, captured free variables,
saved instruction pointer, base pointer into the operand stack. -/
structure Frame where
  fn : CompiledFunction
  freeVars : List Object
  ip : Int
  basePointer : Int

instance : Inhabited Frame := ⟨⟨default, [], 0, 0⟩⟩

/-- The VM state (`runtime.VM`).  `curInsts` and `curIPLimit` cache the
current frame's instruction slice exactly as the source does; the
`curFrame` pointer of the source is maintained equal to
`frames[framesIndex-1]` at all times and is modelled by that index. -/
structure VM where
  constants : List Object
  stack : List Object
  sp : Int
  globals : List Object
  frames : List Frame
  framesIndex : Int
  curInsts : List Nat
  curIPLimit : Int
  ip : Int
  aborting : Bool

/-- Bounds-checked Go slice read `l[i]`; `none` models the Go runtime
panic "index out of range". -/
def goIndexI (l : List α) (i : Int) : Option α :=
  if i < 0 then none else l.get? i.toNat

/-- Bounds-checked Go slice write `l[i] = a`; `none` models the Go
runtime panic "index out of range". -/
def goSetI (l : List α) (i : Int) (a : α) : Option (List α) :=
  if i < 0 then none
  else if i.toNat < l.length then some (l.set i.toNat a) else none

/-- 16-bit big-endian operand decode:
`int(insts[i+1]) | int(insts[i])<<8` with `i` the first operand byte. -/
def read2 (insts : List Nat) (i : Int) : Option Nat := do
  let b1 ← goIndexI insts i
  let b2 ← goIndexI insts (i + 1)
  some (Nat.lor b2 (Nat.shiftLeft b1 8))

/-- Assoc lookup in a source map with the Go zero value for missing
keys (a `map[int]source.Pos` read never faults). -/
def lookupPos (m : List (Int × Nat)) (k : Int) : Nat :=
  match m with
  | [] => 0
  | (k0, p) :: rest => if k0 = k then p else lookupPos rest k

/-- The current frame read through the `curFrame` pointer.  The pointer
is always valid in the source (it was produced by a bounds-checked
`&frames[k]`), so the default is never observable from states reachable
by `run`; theorems pin the index down with explicit hypotheses. -/
def curFrameD (s : VM) : Frame :=
  (goIndexI s.frames (s.framesIndex - 1)).getD default

/-- The source position the error formatter would use:
`v.fileSet.Position(v.curFrame.fn.SourceMap[x])`. -/
def posAt (s : VM) (x : Int) : Nat :=
  lookupPos (curFrameD s).fn.sourceMap x

/-- The runtime errors returned (not panicked) by `Run`, one
constructor per `return`-an-error site exercised by the verified
properties, carrying the source position the message is prefixed with.
`stackOverflow` is `ErrStackOverflow`, which carries no position. -/
inductive RunError where
  | stackOverflow
  | wrongNumArguments (pos : Nat) (want got : Int)
  | invalidSliceIndexType (pos : Nat) (tname : String)
  | invalidSliceIndex (pos : Nat) (low high : Int)
  | notFunction (pos : Nat) (tname : String)
  | notCallable (pos : Nat) (tname : String)
  | located (pos : Nat) (msg : String)
  deriving DecidableEq

/-- Result of one iteration of the `mainloop` body: continue with a new
state, return a runtime error, die with a Go panic (out-of-range index,
failed type assertion, the unknown-opcode panic, the non-empty-stack
panic), or fall outside the embedded opcode subset. -/
inductive StepResult where
  | next (s : VM)
  | error (e : RunError)
  | fatal (msg : String)
  | unmodelled

/-! Projections used to state properties of a step without equating
whole states. -/

def stepState : StepResult → Option VM
  | .next s => some s
  | _ => none

def stepStack (r : StepResult) : Option (List Object) := (stepState r).map VM.stack

def stepSp (r : StepResult) : Option Int := (stepState r).map VM.sp

def stepIp (r : StepResult) : Option Int := (stepState r).map VM.ip

def stepFramesIndex (r : StepResult) : Option Int := (stepState r).map VM.framesIndex

def stepFrames (r : StepResult) : Option (List Frame) := (stepState r).map VM.frames

def stepCurInsts (r : StepResult) : Option (List Nat) := (stepState r).map VM.curInsts

/-! ## OpConstant (vm.go lines 102-111) -/

def execConstant (s : VM) (i : Int) : StepResult :=
  match read2 s.curInsts (i + 1) with
  | none => .fatal "index out of range"
  | some cidx =>
    if s.sp ≥ StackSize then .error .stackOverflow
    else
      match goIndexI s.constants (cidx : Int) with
      | none => .fatal "index out of range"
      | some c =>
        match goSetI s.stack s.sp c with
        | none => .fatal "index out of range"
        | some stk => .next { s with stack := stk, sp := s.sp + 1, ip := i + 2 }

/-! ## OpMap (vm.go lines 625-644)

The operand is `numElements`, the number of operand-stack SLOTS the
loop consumes: `for i := v.sp - numElements; i < v.sp; i += 2`. -/

/-- The key/value collection loop of OpMap.  `fuel` starts at
`numElements` and strictly bounds the number of iterations (the loop
steps by 2); the guard `i < stop` replays the Go loop condition
exactly.  A non-String key is the failed type assertion
`key.(*objects.String)`, a Go panic like an out-of-range read. -/
def collectPairs (stack : List Object) : Nat → Int → Int → Except String (List (String × Object))
  | 0, _, _ => .ok []
  | Nat.succ fuel, i, stop =>
    if i < stop then
      match goIndexI stack i, goIndexI stack (i + 1) with
      | some key, some value =>
        match key with
        | .str k =>
          match collectPairs stack fuel (i + 2) stop with
          | .ok rest => .ok ((k, value) :: rest)
          | .error m => .error m
        | _ => .error "interface conversion: key is not a string"
      | _, _ => .error "index out of range"
    else .ok []

/-- Go map insertion `kv[k] = v` (later keys overwrite earlier ones). -/
def mapInsert (kv : List (String × Object)) (k : String) (v : Object) : List (String × Object) :=
  match kv with
  | [] => [(k, v)]
  | (k0, v0) :: rest => if k0 = k then (k0, v) :: rest else (k0, v0) :: mapInsert rest k v

/-- The map value built by inserting the collected pairs in loop order. -/
def buildMap (pairs : List (String × Object)) : List (String × Object) :=
  pairs.foldl (fun kv p => mapInsert kv p.1 p.2) []

def execMap (s : VM) (i : Int) : StepResult :=
  match read2 s.curInsts (i + 1) with
  | none => .fatal "index out of range"
  | some numElements =>
    match collectPairs s.stack numElements (s.sp - (numElements : Int)) s.sp with
    | .error m => .fatal m
    | .ok pairs =>
      let sp1 := s.sp - (numElements : Int)
      if sp1 ≥ StackSize then .error .stackOverflow
      else
        match goSetI s.stack sp1 (.map (buildMap pairs)) with
        | none => .fatal "index out of range"
        | some stk => .next { s with stack := stk, sp := sp1 + 1, ip := i + 2 }

/-! ## OpSliceIndex (vm.go lines 718-885)

The source has four textually identical container cases (Array,
ImmutableArray, String, Bytes) differing only in the length taken and
the result constructor; `containerSpec` captures that table and
`sliceFinish` the shared body.  The switch has NO default case: any
other container falls through with the three operands already popped. -/

/-- Go slice expression on a list with `0 ≤ lo ≤ hi ≤ length`. -/
def listSlice (elems : List α) (lo hi : Int) : List α :=
  (elems.drop lo.toNat).take (hi - lo).toNat

/-- String slicing (Go slices bytes; chars coincide for ASCII input). -/
def strSlice (sv : String) (lo hi : Int) : String :=
  String.mk (listSlice sv.toList lo hi)

/-- The low-bound decode performed before the container switch:
`var lowIdx int64` stays 0 for Undefined, an Int supplies its value,
anything else is the invalid-slice-index-type error (the error carries
the operand's type name). -/
def decodeLow : Object → Except String Int
  | .undefined => .ok 0
  | .int v => .ok v
  | other => .error (typeName other)

/-- The high-bound decode inside each container case: Undefined
defaults to `numElements`, an Int supplies its value, anything else is
the invalid-slice-index-type error. -/
def decodeHigh (numElements : Int) : Object → Except String Int
  | .undefined => .ok numElements
  | .int v => .ok v
  | other => .error (typeName other)

/-- The clamp `if x < 0 then 0 else if x > numElements then numElements`. -/
def clampIdx (x n : Int) : Int :=
  if x < 0 then 0 else if x > n then n else x

/-- Length and result constructor for the four container kinds of the
OpSliceIndex switch; `none` for every other container (the switch has
no default case).  Note: slicing an ImmutableArray yields a mutable
Array in the source. -/
def containerSpec : Object → Option (Int × (Int → Int → Object))
  | .array elems => some ((elems.length : Int), fun lo hi => .array (listSlice elems lo hi))
  | .immutableArray elems => some ((elems.length : Int), fun lo hi => .array (listSlice elems lo hi))
  | .str sv => some ((sv.toList.length : Int), fun lo hi => .str (strSlice sv lo hi))
  | .bytes bs => some ((bs.length : Int), fun lo hi => .bytes (listSlice bs lo hi))
  | _ => none

/-- The shared body of the four container cases: decode the high bound,
fail if `lowIdx > highIdx` BEFORE clamping, clamp both to
`[0, numElements]`, check stack overflow, push the slice. -/
def sliceFinish (s : VM) (i sp1 numElements lowIdx : Int) (high : Object)
    (mk : Int → Int → Object) : StepResult :=
  match decodeHigh numElements high with
  | .error tname => .error (.invalidSliceIndexType (posAt s i) tname)
  | .ok highIdx =>
    if lowIdx > highIdx then .error (.invalidSliceIndex (posAt s i) lowIdx highIdx)
    else
      if sp1 ≥ StackSize then .error .stackOverflow
      else
        match goSetI s.stack sp1 (mk (clampIdx lowIdx numElements) (clampIdx highIdx numElements)) with
        | none => .fatal "index out of range"
        | some stk => .next { s with stack := stk, sp := sp1 + 1, ip := i }

def execSliceIndex (s : VM) (i : Int) : StepResult :=
  match goIndexI s.stack (s.sp - 1), goIndexI s.stack (s.sp - 2), goIndexI s.stack (s.sp - 3) with
  | some high, some low, some left =>
    let sp1 := s.sp - 3
    match decodeLow low with
    | .error tname => .error (.invalidSliceIndexType (posAt s i) tname)
    | .ok lowIdx =>
      match containerSpec left with
      | some (numElements, mk) => sliceFinish s i sp1 numElements lowIdx high mk
      | none => .next { s with sp := sp1, ip := i }
  | _, _, _ => .fatal "index out of range"

/-! ## OpCall (vm.go lines 887-1001)

The Closure and CompiledFunction cases are textually identical up to
the captured free variables; `execCallFn` is that shared body and
`pushFrame` its frame-update tail.  Note the frame update indexes
`v.frames[v.framesIndex]` with NO MaxFrames guard. -/

/-- The tail-call lookahead:
`nextOp := v.curInsts[v.ip+1]` then
`nextOp == OpReturnValue || (nextOp == OpPop && OpReturn == v.curInsts[v.ip+2])`
with Go's short-circuit evaluation of the second index. -/
def tailCallNext (insts : List Nat) (vip : Int) : Option Bool :=
  match goIndexI insts (vip + 1) with
  | none => none
  | some nextOp =>
    if nextOp = Opcode.opReturnValue then some true
    else if nextOp = Opcode.opPop then
      match goIndexI insts (vip + 2) with
      | none => none
      | some op2 => some (decide (op2 = Opcode.opReturn))
    else some false

/-- The argument-copy loop of the tail-call path:
`for p := 0; p < numArgs; p++ hold stack[basePointer+p] = stack[sp-numArgs+p]`,
performed sequentially. -/
def copyArgsAux (bp src : Int) : Nat → Nat → List Object → Option (List Object)
  | _, 0, st => some st
  | p, Nat.succ rem, st =>
    match goIndexI st (src + (p : Int)) with
    | none => none
    | some v =>
      match goSetI st (bp + (p : Int)) v with
      | none => none
      | some st2 => copyArgsAux bp src (p + 1) rem st2

def copyArgs (st : List Object) (bp src : Int) (n : Nat) : Option (List Object) :=
  copyArgsAux bp src 0 n st

/-- The frame update of a non-tail call: save the caller's ip, point
`curFrame` at `frames[framesIndex]` (bounds-checked indexing — this is
where a 1025th frame faults), fill in fn/freeVars/basePointer, switch
the instruction cache, bump `framesIndex`, advance sp to
`basePointer + NumLocals`.  The stack itself is not written. -/
def pushFrame (s : VM) (i : Int) (nArgs : Nat) (fn : CompiledFunction)
    (free : List Object) : StepResult :=
  match goIndexI s.frames (s.framesIndex - 1) with
  | none => .fatal "index out of range"
  | some curF =>
    match goSetI s.frames (s.framesIndex - 1) { curF with ip := i + 1 } with
    | none => .fatal "index out of range"
    | some frames1 =>
      match goIndexI frames1 s.framesIndex with
      | none => .fatal "index out of range"
      | some slot =>
        match goSetI frames1 s.framesIndex
            { slot with fn := fn, freeVars := free, basePointer := s.sp - (nArgs : Int) } with
        | none => .fatal "index out of range"
        | some frames2 =>
          .next { s with
                  frames := frames2, framesIndex := s.framesIndex + 1,
                  curInsts := fn.instructions,
                  curIPLimit := (fn.instructions.length : Int) - 1,
                  ip := -1,
                  sp := s.sp - (nArgs : Int) + fn.numLocals }

/-- Shared body of the Closure / CompiledFunction cases of OpCall:
arity check, tail-call test against the current frame's function
(pointer equality, modelled by `fid`), then either the in-place
argument overwrite or a frame push. -/
def execCallFn (s : VM) (i : Int) (nArgs : Nat) (fn : CompiledFunction)
    (free : List Object) : StepResult :=
  if (nArgs : Int) ≠ fn.numParameters then
    .error (.wrongNumArguments (posAt s i) fn.numParameters (nArgs : Int))
  else if fn.fid = (curFrameD s).fn.fid then
    match tailCallNext s.curInsts (i + 1) with
    | none => .fatal "index out of range"
    | some true =>
      match copyArgs s.stack (curFrameD s).basePointer (s.sp - (nArgs : Int)) nArgs with
      | none => .fatal "index out of range"
      | some stk => .next { s with stack := stk, sp := s.sp - ((nArgs : Int) + 1), ip := -1 }
    | some false => pushFrame s i nArgs fn free
  else pushFrame s i nArgs fn free

def execCall (s : VM) (i : Int) : StepResult :=
  match goIndexI s.curInsts (i + 1) with
  | none => .fatal "index out of range"
  | some nArgs =>
    match goIndexI s.stack (s.sp - 1 - (nArgs : Int)) with
    | none => .fatal "index out of range"
    | some callee =>
      match callee with
      | .closure fn free => execCallFn s i nArgs fn free
      | .compiledFunction fn => execCallFn s i nArgs fn []
      | .builtin _ _ => .unmodelled
      | other => .error (.notCallable (posAt s i) (typeName other))

/-! ## OpReturnValue / OpReturn (vm.go lines 1003-1042) -/

def execReturnValue (s : VM) (_i : Int) : StepResult :=
  match goIndexI s.stack (s.sp - 1) with
  | none => .fatal "index out of range"
  | some retVal =>
    let fi1 := s.framesIndex - 1
    match goIndexI s.frames fi1, goIndexI s.frames (fi1 - 1) with
    | some lastFrame, some caller =>
      let sp1 := lastFrame.basePointer
      match goSetI s.stack (sp1 - 1) retVal with
      | none => .fatal "index out of range"
      | some stk =>
        .next { s with
                framesIndex := fi1,
                curInsts := caller.fn.instructions,
                curIPLimit := (caller.fn.instructions.length : Int) - 1,
                ip := caller.ip, sp := sp1, stack := stk }
    | _, _ => .fatal "index out of range"

def execReturn (s : VM) (_i : Int) : StepResult :=
  let fi1 := s.framesIndex - 1
  match goIndexI s.frames fi1, goIndexI s.frames (fi1 - 1) with
  | some lastFrame, some caller =>
    let sp1 := lastFrame.basePointer
    match goSetI s.stack (sp1 - 1) .undefined with
    | none => .fatal "index out of range"
    | some stk =>
      .next { s with
              framesIndex := fi1,
              curInsts := caller.fn.instructions,
              curIPLimit := (caller.fn.instructions.length : Int) - 1,
              ip := caller.ip, sp := sp1, stack := stk }
  | _, _ => .fatal "index out of range"

/-! ## OpClosure (vm.go lines 1130-1157) -/

/-- The free-variable collection loop:
`free[j] = v.stack[v.sp-numFree+j]` for `j < numFree`. -/
def collectFrom (stack : List Object) : Int → Nat → Option (List Object)
  | _, 0 => some []
  | base, Nat.succ m =>
    match goIndexI stack base with
    | none => none
    | some v =>
      match collectFrom stack (base + 1) m with
      | none => none
      | some rest => some (v :: rest)

/-- OpClosure: decode constIndex (u16) and numFree (u8), assert the
constant is a CompiledFunction — on failure the source returns the
"not function" error whose type name is produced by calling TypeName on
the nil asserted pointer, which yields "compiled-function" — collect
the free variables, pop them, push the Closure. -/
def execClosure (s : VM) (i : Int) : StepResult :=
  match read2 s.curInsts (i + 1) with
  | none => .fatal "index out of range"
  | some constIndex =>
    match goIndexI s.curInsts (i + 3) with
    | none => .fatal "index out of range"
    | some numFree =>
      match goIndexI s.constants (constIndex : Int) with
      | none => .fatal "index out of range"
      | some c =>
        match c with
        | .compiledFunction fn =>
          match collectFrom s.stack (s.sp - (numFree : Int)) numFree with
          | none => .fatal "index out of range"
          | some free =>
            let sp1 := s.sp - (numFree : Int)
            if sp1 ≥ StackSize then .error .stackOverflow
            else
              match goSetI s.stack sp1 (.closure fn free) with
              | none => .fatal "index out of range"
              | some stk => .next { s with stack := stk, sp := sp1 + 1, ip := i + 3 }
        | _ => .error (.notFunction (posAt s i) "compiled-function")

/-! ## The dispatch loop -/

/-- One iteration body of `mainloop`: `v.ip++`, fetch the opcode byte,
dispatch.  Branches for opcodes outside the embedded subset yield
`unmodelled`; a byte outside the opcode enumeration is the source's
`panic(unknown opcode)`. -/
def execStep (s : VM) : StepResult :=
  let i := s.ip + 1
  match goIndexI s.curInsts i with
  | none => .fatal "index out of range"
  | some op =>
    if op = Opcode.opConstant then execConstant s i
    else if op = Opcode.opPop then .next { s with sp := s.sp - 1, ip := i }
    else if op = Opcode.opMap then execMap s i
    else if op = Opcode.opSliceIndex then execSliceIndex s i
    else if op = Opcode.opCall then execCall s i
    else if op = Opcode.opReturnValue then execReturnValue s i
    else if op = Opcode.opReturn then execReturn s i
    else if op = Opcode.opClosure then execClosure s i
    else if Opcode.unmodelledOps.contains op then .unmodelled
    else .fatal "unknown opcode"

/-- Outcome of `Run`: a clean return (`nil` error), a returned runtime
error, a Go panic, an unmodelled instruction, or exhausted fuel (the
loop still running). -/
inductive Outcome where
  | ok (final : VM)
  | err (e : RunError)
  | fatal (msg : String)
  | unmodelled
  | outOfFuel (s : VM)

/-- The post-loop check (vm.go lines 1265-1268): a non-empty stack
after a non-aborted run is a panic, not a returned error; otherwise
`Run` returns nil. -/
def finishRun (s : VM) : Outcome :=
  if s.sp > 0 ∧ s.aborting = false then .fatal "non empty stack after execution"
  else .ok s

/-- The `mainloop` (vm.go lines 97-1263): before each iteration both
`ip < curIPLimit` and the abort flag are checked; fuel bounds the
number of iterations (the loop itself may diverge). -/
def runLoop : Nat → VM → Outcome
  | 0, s => .outOfFuel s
  | Nat.succ fuel, s =>
    if s.ip < s.curIPLimit ∧ s.aborting = false then
      match execStep s with
      | .next s2 => runLoop fuel s2
      | .error e => .err e
      | .fatal m => .fatal m
      | .unmodelled => .unmodelled
    else finishRun s

/-- The state reset at the top of `Run` (vm.go lines 88-95): sp, the
current frame and its instruction cache, framesIndex, ip, and the
abort flag are all reset; `none` models the (unreachable) fault on an
empty frames slice. -/
def runReset (v : VM) : Option VM :=
  match goIndexI v.frames 0 with
  | none => none
  | some f0 =>
    some { v with
           sp := 0, framesIndex := 1,
           curInsts := f0.fn.instructions,
           curIPLimit := (f0.fn.instructions.length : Int) - 1,
           ip := -1, aborting := false }

/-- `Run`: reset, then drive the loop. -/
def run (v : VM) (fuel : Nat) : Outcome :=
  match runReset v with
  | none => .fatal "index out of range"
  | some s => runLoop fuel s

/-! ## Selector-chain assignment: `indexAssign` (vm.go lines 1283-1318)

The capability methods `IndexGet` / `IndexSet` live in the objects
package (not under src/) and are modelled from the spec below; the
walk itself is embedded from the source.  The walk additionally
records a ghost trace of the capability calls it performs, so that
"exactly k-1 reads then one write" is a statement about the function
and not about its syntax. -/

/-- Structured failures of the capability methods (spec section 3). -/
inductive IndexErr where
  | invalidIndexType
  | invalidIndexValueType
  | indexOutOfBounds
  deriving DecidableEq

/-- The Go error message of each capability failure (spec section 7). -/
def indexErrText : IndexErr → String
  | .invalidIndexType => "invalid index type"
  | .invalidIndexValueType => "invalid index value type"
  | .indexOutOfBounds => "index out of bounds"

/-- Modelled from the spec: the Indexable capability.  `none` means the
variant does not implement Indexable (the type assertion
`(*dst).(objects.Indexable)` fails); sequences fail InvalidIndexType or
IndexOutOfBounds, maps return Undefined for missing keys. -/
def indexGet? (v key : Object) : Option (Except IndexErr Object) :=
  match v with
  | .array elems =>
    some (match key with
          | .int idx =>
            if 0 ≤ idx ∧ idx < (elems.length : Int)
            then .ok (elems.getD idx.toNat .undefined)
            else .error .indexOutOfBounds
          | _ => .error .invalidIndexType)
  | .immutableArray elems =>
    some (match key with
          | .int idx =>
            if 0 ≤ idx ∧ idx < (elems.length : Int)
            then .ok (elems.getD idx.toNat .undefined)
            else .error .indexOutOfBounds
          | _ => .error .invalidIndexType)
  | .map kv =>
    some (match key with
          | .str k => .ok ((kv.lookup k).getD .undefined)
          | _ => .error .invalidIndexType)
  | .immutableMap kv =>
    some (match key with
          | .str k => .ok ((kv.lookup k).getD .undefined)
          | _ => .error .invalidIndexType)
  | .str sv =>
    some (match key with
          | .int idx =>
            if 0 ≤ idx ∧ idx < (sv.toList.length : Int)
            then .ok (.char (sv.toList.getD idx.toNat ' '))
            else .error .indexOutOfBounds
          | _ => .error .invalidIndexType)
  | .bytes bs =>
    some (match key with
          | .int idx =>
            if 0 ≤ idx ∧ idx < (bs.length : Int)
            then .ok (.int ((bs.getD idx.toNat 0 : Nat) : Int))
            else .error .indexOutOfBounds
          | _ => .error .invalidIndexType)
  | _ => none

/-- Modelled from the spec: the IndexAssignable capability (mutable
Array and Map).  The mutation itself happens through the shared handle
and is not reflected here; only success or the structured failure is.
`none` means the variant does not implement IndexAssignable. -/
def indexSet? (v key _val : Object) : Option (Except IndexErr Unit) :=
  match v with
  | .array elems =>
    some (match key with
          | .int idx =>
            if 0 ≤ idx ∧ idx < (elems.length : Int) then .ok ()
            else .error .indexOutOfBounds
          | _ => .error .invalidIndexType)
  | .map _ =>
    some (match key with
          | .str _ => .ok ()
          | _ => .error .invalidIndexType)
  | _ => none

/-- Ghost trace entries: one per capability call actually performed. -/
inductive IAEvent where
  | get (dst sel : Object)
  | set (dst sel val : Object)

def isGet : IAEvent → Bool
  | .get _ _ => true
  | _ => false

def isSet : IAEvent → Bool
  | .set _ _ _ => true
  | _ => false

/-- The walk of `indexAssign` from selector index `sidx` down: while
`sidx > 0` the selector is applied with IndexGet (an intermediate must
be Indexable; an ErrInvalidIndexType is re-formatted, other errors
propagate verbatim); at `sidx = 0` the leaf is written with IndexSet
(the leaf must be IndexAssignable; an ErrInvalidIndexValueType is
re-formatted — with the source's "invaid" typo — other errors
propagate).  Selector reads are Go slice indexing; `none` is the
out-of-range panic (only reachable for an empty selector slice). -/
def indexAssignFrom (src : Object) (selectors : List Object) :
    Object → Nat → List IAEvent → Option (Except String Unit × List IAEvent)
  | dst, 0, events =>
    match goIndexI selectors 0 with
    | none => none
    | some sel0 =>
      match indexSet? dst sel0 src with
      | none => some (.error ("not index-assignable: " ++ typeName dst), events)
      | some r =>
        let events2 := events ++ [IAEvent.set dst sel0 src]
        match r with
        | .error e =>
          if e = .invalidIndexValueType
          then some (.error ("invaid index value type: " ++ typeName src), events2)
          else some (.error (indexErrText e), events2)
        | .ok _ => some (.ok (), events2)
  | dst, Nat.succ sidx, events =>
    match goIndexI selectors ((sidx : Int) + 1) with
    | none => none
    | some sel =>
      match indexGet? dst sel with
      | none => some (.error ("not indexable: " ++ typeName dst), events)
      | some r =>
        let events2 := events ++ [IAEvent.get dst sel]
        match r with
        | .error e =>
          if e = .invalidIndexType
          then some (.error ("invalid index type: " ++ typeName sel), events2)
          else some (.error (indexErrText e), events2)
        | .ok next => indexAssignFrom src selectors next sidx events2

/-- `indexAssign(dst, src, selectors)`: start the walk at
`sidx = len(selectors) - 1`. -/
def indexAssign (dst src : Object) (selectors : List Object) :
    Option (Except String Unit × List IAEvent) :=
  indexAssignFrom src selectors dst (selectors.length - 1) []

/-! ## Concrete states used by witnesses and counterexamples -/

/-- A function body used by the example frames. -/
def exFn : CompiledFunction :=
  { fid := 1, instructions := [Opcode.opSliceIndex], numLocals := 0,
    numParameters := 0, sourceMap := [] }

/-- A resting frame for the example states. -/
def exFrame : Frame :=
  { fn := exFn, freeVars := [], ip := 0, basePointer := 0 }

/-- A baseline state the examples override. -/
def exVM : VM :=
  { constants := [], stack := [], sp := 0, globals := [],
    frames := [exFrame], framesIndex := 1,
    curInsts := [Opcode.opSliceIndex], curIPLimit := 0, ip := -1,
    aborting := false }

/-- Slice example a: "hello"[2:100] (spec scenario 5). -/
def c5exA : VM :=
  { exVM with
    stack := [.str "hello", .int 2, .int 100], sp := 3 }

/-- Slice example b: "hello"[-5:2] (spec scenario 5). -/
def c5exB : VM :=
  { exVM with
    stack := [.str "hello", .int (-5), .int 2], sp := 3 }

/-- Unsupported slice container with a well-typed low bound: 7[0:x]. -/
def c10ex : VM :=
  { exVM with
    stack := [.int 7, .undefined, .undefined], sp := 3 }

/-- Unsupported slice container with a STRING low bound: the low-bound
type check fires before the container switch. -/
def c10exBad : VM :=
  { exVM with
    stack := [.int 7, .str "x", .undefined], sp := 3 }

/-- The self-recursive function of the tail-call examples: body
`OpCall 1; OpReturnValue`. -/
def c2fn : CompiledFunction :=
  { fid := 7, instructions := [Opcode.opCall, 1, Opcode.opReturnValue],
    numLocals := 1, numParameters := 1, sourceMap := [] }

/-- Mid-execution state about to run the self-recursive OpCall: locals
block at base 0, callee closure and one argument pushed. -/
def c2ex : VM :=
  { exVM with
    stack := [.int 9, .closure c2fn [], .int 8], sp := 3,
    frames := [{ fn := c2fn, freeVars := [], ip := 0, basePointer := 0 }],
    curInsts := c2fn.instructions, curIPLimit := 2, ip := -1 }

/-- A zero-argument callee distinct from the current frame's function. -/
def c1fnCallee : CompiledFunction :=
  { fid := 2, instructions := [Opcode.opReturn], numLocals := 0,
    numParameters := 0, sourceMap := [] }

/-- The function whose body performs the non-tail OpCall. -/
def c1fnCaller : CompiledFunction :=
  { fid := 3, instructions := [Opcode.opCall, 0, Opcode.opPop], numLocals := 0,
    numParameters := 0, sourceMap := [] }

/-- A state with all MaxFrames frames in use (framesIndex = 1024) about
to perform a non-tail OpCall: the source has no MaxFrames guard and
indexes frames[1024] out of range. -/
def c1ex : VM :=
  { exVM with
    stack := [.closure c1fnCallee []], sp := 1,
    frames := List.replicate 1024 { fn := c1fnCaller, freeVars := [], ip := 0, basePointer := 0 },
    framesIndex := 1024,
    curInsts := c1fnCaller.instructions, curIPLimit := 2, ip := -1 }

/-- A callee for the frame-push examples, with one parameter and two
locals. -/
def c6fn : CompiledFunction :=
  { fid := 4, instructions := [Opcode.opReturn], numLocals := 2,
    numParameters := 1, sourceMap := [] }

/-- The function whose body performs a one-argument non-tail OpCall. -/
def c6caller : CompiledFunction :=
  { fid := 5, instructions := [Opcode.opCall, 1, Opcode.opPop], numLocals := 0,
    numParameters := 0, sourceMap := [] }

/-- Frame-push state: caller about to call c6fn with one argument; the
stack slot above the argument (the callee's local slot 1) holds the
stale value 42. -/
def c6ex : VM :=
  { exVM with
    stack := [.closure c6fn [], .int 5, .int 42], sp := 2,
    frames := [{ fn := c6caller, freeVars := [], ip := 0, basePointer := 0 },
               { fn := exFn, freeVars := [], ip := 0, basePointer := 0 }],
    framesIndex := 1,
    curInsts := c6caller.instructions, curIPLimit := 2, ip := -1 }

/-- OpMap state with operand 2 and exactly two stack slots (one
key/value pair). -/
def c8ex : VM :=
  { exVM with
    stack := [.str "a", .int 1], sp := 2,
    curInsts := [Opcode.opMap, 0, 2], curIPLimit := 2, ip := -1 }

/-- OpClosure state whose referenced constant is an Int, not a
CompiledFunction. -/
def c9ex : VM :=
  { exVM with
    constants := [.int 5],
    curInsts := [Opcode.opClosure, 0, 0, 0], curIPLimit := 3, ip := -1 }

/-- Selector-chain example: m["a"][0] = v over m = ("a" -> [0]). -/
def c7dst : Object := .map [("a", .array [.int 0])]

def c7sels : List Object := [.int 0, .str "a"]

/-- Discriminator for the OpClosure type assertion. -/
def isCompiledFunction : Object → Bool
  | .compiledFunction _ => true
  | _ => false

/-! # Theorems -/

/-- Container lengths produced by the OpSliceIndex switch are
non-negative (they are Go slice / string lengths). -/
theorem containerSpec_len_nonneg (left : Object) (n : Int) (mk : Int → Int → Object)
    (h : containerSpec left = some (n, mk)) : 0 ≤ n := by
  cases left <;> simp [containerSpec] at h <;> omega

/-- The clamp maps into [0, n] and is monotone (for 0 ≤ n). -/
theorem clampIdx_bounds (x n : Int) (hn : 0 ≤ n) :
    0 ≤ clampIdx x n ∧ clampIdx x n ≤ n := by
  unfold clampIdx
  split <;> [skip; split] <;> omega

theorem clampIdx_mono (x y n : Int) (hn : 0 ≤ n) (h : x ≤ y) :
    clampIdx x n ≤ clampIdx y n := by
  unfold clampIdx
  split <;> split <;> [skip; skip; skip; split] <;> omega

/-- Claim C9: an OpClosure whose referenced constant is not a
CompiledFunction makes Run return the source-position-prefixed
"not function" error (the position is the opcode's own ip) — a
returned `RunError`, not a fatal panic.  The type name in the message
is the one the source produces by calling TypeName on the
nil-asserted pointer. -/
theorem c9_closure_not_function_error (s : VM) (i : Int) (cidx nFree : Nat) (c : Object)
    (hip : s.ip + 1 = i)
    (hop : goIndexI s.curInsts i = some Opcode.opClosure)
    (hconst : read2 s.curInsts (i + 1) = some cidx)
    (hfree : goIndexI s.curInsts (i + 3) = some nFree)
    (hc : goIndexI s.constants (cidx : Int) = some c)
    (hnotfn : isCompiledFunction c = false) :
    execStep s = .error (.notFunction (posAt s i) "compiled-function") := by
  unfold execStep
  rw [hip]
  simp only [hop]
  norm_num
  unfold execClosure
  simp only [hconst, hfree, hc]
  cases c <;> first | rfl | simp [isCompiledFunction] at hnotfn

/-- Claim C9 witness: the concrete OpClosure-over-Int state returns the
error. -/
theorem c9_closure_not_function_error_witness :
    execStep c9ex = .error (.notFunction 0 "compiled-function") :=
  c9_closure_not_function_error c9ex 0 0 0 (.int 5) rfl rfl rfl rfl rfl rfl

/-- Claim C10 counterexample: the claim as stated is false — an
OpSliceIndex whose container is an Int but whose low bound is a String
does NOT continue silently: the low-bound type check precedes the
container switch, so Run returns the invalid-slice-index-type error. -/
theorem c10_counterexample :
    execStep c10exBad = .error (.invalidSliceIndexType 0 "string") := by
  rfl

/-- Claim C10 (amended): for an OpSliceIndex whose container is not an
Array / ImmutableArray / String / Bytes, PROVIDED the low operand
decodes (it is Undefined or an Int), the three operands are popped,
nothing is pushed, no error is reported, and execution continues with
sp decreased by 3 and the stack contents untouched. -/
theorem c10_slice_unsupported_amended (s : VM) (i : Int) (high low left : Object) (dl : Int)
    (hip : s.ip + 1 = i)
    (hop : goIndexI s.curInsts i = some Opcode.opSliceIndex)
    (hhigh : goIndexI s.stack (s.sp - 1) = some high)
    (hlow : goIndexI s.stack (s.sp - 2) = some low)
    (hleft : goIndexI s.stack (s.sp - 3) = some left)
    (hcont : containerSpec left = none)
    (hdl : decodeLow low = .ok dl) :
    execStep s = .next { s with sp := s.sp - 3, ip := i } := by
  unfold execStep
  rw [hip]
  simp only [hop]
  norm_num
  unfold execSliceIndex
  simp only [hhigh, hlow, hleft, hdl, hcont]

/-- Claim C10 witness: slicing the Int 7 with both bounds Undefined
silently pops 3 and continues. -/
theorem c10_slice_unsupported_amended_witness :
    execStep c10ex = .next { c10ex with sp := 0, ip := 0 } := by
  have h := c10_slice_unsupported_amended c10ex 0 .undefined .undefined (.int 7) 0
    rfl rfl rfl rfl rfl rfl rfl
  exact h

/-- Claim C5: for an OpSliceIndex on an Array, ImmutableArray, String
or Bytes container (captured by `containerSpec`): an Undefined low
bound decodes to 0 and an Undefined high bound to the container
length; a decoded low index greater than the decoded high index —
before clamping — is the invalid-slice-index error; otherwise both
indices are clamped to [0, len] and the corresponding slice is pushed
in place of the three popped operands. -/
theorem c5_slice_semantics (s : VM) (i : Int) (high low left : Object)
    (n : Int) (mk : Int → Int → Object) (dl : Int)
    (hip : s.ip + 1 = i)
    (hop : goIndexI s.curInsts i = some Opcode.opSliceIndex)
    (hhigh : goIndexI s.stack (s.sp - 1) = some high)
    (hlow : goIndexI s.stack (s.sp - 2) = some low)
    (hleft : goIndexI s.stack (s.sp - 3) = some left)
    (hcont : containerSpec left = some (n, mk))
    (hdl : decodeLow low = .ok dl) :
    (low = .undefined → dl = 0) ∧
    (∀ dh, decodeHigh n high = .ok dh →
      (high = .undefined → dh = n) ∧
      (dl > dh → execStep s = .error (.invalidSliceIndex (posAt s i) dl dh)) ∧
      (¬ dl > dh → s.sp - 3 < StackSize →
        ∀ stk, goSetI s.stack (s.sp - 3) (mk (clampIdx dl n) (clampIdx dh n)) = some stk →
          execStep s = .next { s with stack := stk, sp := s.sp - 2, ip := i } ∧
          0 ≤ clampIdx dl n ∧ clampIdx dl n ≤ clampIdx dh n ∧ clampIdx dh n ≤ n)) := by
  have hn : 0 ≤ n := containerSpec_len_nonneg left n mk hcont
  have hstep : execStep s = sliceFinish s i (s.sp - 3) n dl high mk := by
    unfold execStep
    rw [hip]
    simp only [hop]
    norm_num
    unfold execSliceIndex
    simp only [hhigh, hlow, hleft, hdl, hcont]
  refine ⟨?_, ?_⟩
  · intro h
    subst h
    exact (by simpa [decodeLow] using hdl : 0 = dl).symm
  · intro dh hdh
    refine ⟨?_, ?_, ?_⟩
    · intro h
      subst h
      exact (by simpa [decodeHigh] using hdh : n = dh).symm
    · intro hgt
      rw [hstep]
      unfold sliceFinish
      simp only [hdh]
      rw [if_pos hgt]
    · intro hle hsp stk hset
      refine ⟨?_, (clampIdx_bounds dl n hn).1, clampIdx_mono dl dh n hn (not_lt.mp hle),
        (clampIdx_bounds dh n hn).2⟩
      rw [hstep]
      unfold sliceFinish
      simp only [hdh]
      rw [if_neg hle, if_neg (not_le.mpr hsp)]
      simp only [hset]
      have h31 : s.sp - 3 + 1 = s.sp - 2 := by omega
      rw [h31]

/-- Claim C5 witness: the spec's two concrete scenarios,
"hello"[2:100] = "llo" and "hello"[-5:2] = "he", both via the claim
theorem. -/
theorem c5_slice_semantics_witness :
    execStep c5exA = .next { c5exA with stack := [.str "llo", .int 2, .int 100], sp := 1, ip := 0 } ∧
    execStep c5exB = .next { c5exB with stack := [.str "he", .int (-5), .int 2], sp := 1, ip := 0 } := by
  constructor
  · have h := ((c5_slice_semantics c5exA 0 (.int 100) (.int 2) (.str "hello") 5
      (fun lo hi => .str (strSlice "hello" lo hi)) 2
      rfl rfl rfl rfl rfl rfl rfl).2 100 rfl).2.2 (by decide) (by decide)
      [.str "llo", .int 2, .int 100] rfl
    exact h.1
  · have h := ((c5_slice_semantics c5exB 0 (.int 2) (.int (-5)) (.str "hello") 5
      (fun lo hi => .str (strSlice "hello" lo hi)) (-5)
      rfl rfl rfl rfl rfl rfl rfl).2 2 rfl).2.2 (by decide) (by decide)
      [.str "he", .int (-5), .int 2] rfl
    exact h.1

/-- The OpMap collection loop produces exactly m pairs when it
consumes 2m slots (stop = start + 2m) and succeeds. -/
theorem collectPairs_length : ∀ (m fuel : Nat) (stack : List Object) (i stop : Int)
    (ps : List (String × Object)), i + 2 * (m : Int) = stop → m ≤ fuel →
    collectPairs stack fuel i stop = .ok ps → ps.length = m := by
  intro m
  induction m with
  | zero =>
    intro fuel stack i stop ps hstop _ h
    cases fuel with
    | zero =>
      simp [collectPairs] at h
      subst h
      rfl
    | succ f =>
      have hlt : ¬ i < stop := by omega
      simp [collectPairs, hlt] at h
      subst h
      rfl
  | succ m ih =>
    intro fuel stack i stop ps hstop hf h
    cases fuel with
    | zero => omega
    | succ f =>
      have hlt : i < stop := by push_cast at hstop; omega
      simp only [collectPairs, if_pos hlt] at h
      cases hk : goIndexI stack i with
      | none =>
        rw [hk] at h
        simp at h
      | some key =>
        rw [hk] at h
        cases hv : goIndexI stack (i + 1) with
        | none =>
          rw [hv] at h
          simp at h
        | some value =>
          rw [hv] at h
          cases key <;> try simp at h
          rename_i k
          cases hr : collectPairs stack f (i + 2) stop with
          | ok rest =>
            rw [hr] at h
            simp only [Except.ok.injEq] at h
            subst h
            have : rest.length = m := ih f stack (i + 2) stop rest (by push_cast at hstop ⊢; omega) (by omega) hr
            simp [this]
          | error msg =>
            rw [hr] at h
            simp at h

/-- Claim C8 counterexample: the claim as stated is false — with
16-bit operand n = 2 and an operand stack holding exactly two slots
(one String key and one value), OpMap pops those 2 SLOTS (one pair,
not two pairs / four slots) and pushes a one-entry Map; the resulting
sp is 1, not the 2 - 2*2 + 1 the claim's reading implies. -/
theorem c8_counterexample :
    execStep c8ex = .next { c8ex with stack := [.map [("a", .int 1)], .int 1], sp := 1, ip := 2 } ∧
    ((1 : Int) ≠ 2 - 2 * 2 + 1) := by
  exact ⟨rfl, by decide⟩

/-- Claim C8 (amended): for every OpMap with 16-bit operand n, the
operand counts operand-stack SLOTS: executing it pops n slots forming
n/2 key/value pairs (keys are Strings) and pushes one Map built from
those pairs. -/
theorem c8_opmap_amended (s : VM) (i : Int) (n m : Nat) (pairs : List (String × Object))
    (stk : List Object)
    (hip : s.ip + 1 = i)
    (hop : goIndexI s.curInsts i = some Opcode.opMap)
    (hn : read2 s.curInsts (i + 1) = some n)
    (heven : n = 2 * m)
    (hpairs : collectPairs s.stack n (s.sp - (n : Int)) s.sp = .ok pairs)
    (hsp : s.sp - (n : Int) < StackSize)
    (hset : goSetI s.stack (s.sp - (n : Int)) (.map (buildMap pairs)) = some stk) :
    execStep s = .next { s with stack := stk, sp := s.sp - (n : Int) + 1, ip := i + 2 } ∧
    pairs.length = m := by
  constructor
  · unfold execStep
    rw [hip]
    simp only [hop]
    norm_num
    unfold execMap
    simp only [hn, hpairs]
    rw [if_neg (not_le.mpr hsp)]
    simp only [hset]
  · exact collectPairs_length m n s.stack (s.sp - (n : Int)) s.sp pairs
      (by omega) (by omega) hpairs

/-! Bounds-checked access lemmas. -/

theorem goSetI_eq_some (l : List α) (i : Int) (a : α) (h0 : 0 ≤ i) (hl : i < (l.length : Int)) :
    goSetI l i a = some (l.set i.toNat a) := by
  unfold goSetI
  rw [if_neg (by omega), if_pos (by omega)]

theorem goSetI_length (l : List α) (i : Int) (a : α) (l' : List α)
    (h : goSetI l i a = some l') : l'.length = l.length := by
  unfold goSetI at h
  split at h
  · simp at h
  · split at h
    · simp only [Option.some.injEq] at h
      subst h
      simp
    · simp at h

theorem goIndexI_none (l : List α) (i : Int) (h : (l.length : Int) ≤ i) :
    goIndexI l i = none := by
  unfold goIndexI
  rw [if_neg (by omega)]
  exact List.get?_eq_none.mpr (by omega)

theorem goIndexI_exists (l : List α) (i : Int) (h0 : 0 ≤ i) (hl : i < (l.length : Int)) :
    ∃ a, goIndexI l i = some a := by
  unfold goIndexI
  rw [if_neg (by omega)]
  exact ⟨l.get ⟨i.toNat, by omega⟩, List.get?_eq_get (by omega)⟩

theorem goIndexI_set_self (l l' : List α) (i : Int) (a : α)
    (h : goSetI l i a = some l') : goIndexI l' i = some a := by
  unfold goSetI at h
  split at h
  · simp at h
  · split at h
    · rename_i hneg hlt
      simp only [Option.some.injEq] at h
      subst h
      unfold goIndexI
      rw [if_neg hneg]
      rw [List.get?_set_eq_of_lt a hlt]
    · simp at h

theorem goIndexI_set_other (l l' : List α) (i j : Int) (a : α)
    (h : goSetI l i a = some l') (hne : j ≠ i) : goIndexI l' j = goIndexI l j := by
  unfold goSetI at h
  split at h
  · simp at h
  · split at h
    · rename_i hneg _
      simp only [Option.some.injEq] at h
      subst h
      unfold goIndexI
      by_cases hj : j < 0
      · rw [if_pos hj, if_pos hj]
      · rw [if_neg hj, if_neg hj]
        exact List.get?_set_ne a l (by omega)
    · simp at h

/-- Element-wise description of the sequential tail-call argument copy
when the write block [bp+p0, bp+p0+n) lies strictly below the read
block start `src`: positions outside the write block are untouched and
position bp+p holds the original value at src+p. -/
theorem copyArgsAux_spec (bp src : Int) :
    ∀ (n p0 : Nat) (st st' : List Object),
      copyArgsAux bp src p0 n st = some st' →
      bp + ((p0 : Int) + (n : Int)) ≤ src →
      (∀ j : Int, (j < bp + (p0 : Int) ∨ bp + ((p0 : Int) + (n : Int)) ≤ j) →
        goIndexI st' j = goIndexI st j) ∧
      (∀ p : Nat, p0 ≤ p → p < p0 + n →
        goIndexI st' (bp + (p : Int)) = goIndexI st (src + (p : Int))) := by
  intro n
  induction n with
  | zero =>
    intro p0 st st' h _
    simp [copyArgsAux] at h
    subst h
    exact ⟨fun j _ => rfl, fun p h1 h2 => by omega⟩
  | succ rem ih =>
    intro p0 st st' h hdisj
    simp only [copyArgsAux] at h
    cases hv : goIndexI st (src + (p0 : Int)) with
    | none =>
      simp only [hv] at h
      exact absurd h (by simp)
    | some v =>
      simp only [hv] at h
      cases hst2 : goSetI st (bp + (p0 : Int)) v with
      | none =>
        simp only [hst2] at h
        exact absurd h (by simp)
      | some st2 =>
        simp only [hst2] at h
        have hih := ih (p0 + 1) st2 st' h (by push_cast at hdisj ⊢; omega)
        constructor
        · intro j hj
          have h1 : goIndexI st' j = goIndexI st2 j :=
            hih.1 j (by push_cast at hj ⊢; omega)
          have h2 : goIndexI st2 j = goIndexI st j :=
            goIndexI_set_other st st2 (bp + (p0 : Int)) j v hst2
              (by push_cast at hj ⊢; omega)
          rw [h1, h2]
        · intro p hp1 hp2
          rcases Nat.eq_or_lt_of_le hp1 with heq | hlt
          · have h1 : goIndexI st' (bp + (p : Int)) = goIndexI st2 (bp + (p : Int)) :=
              hih.1 _ (by push_cast; omega)
            rw [h1, ← heq, goIndexI_set_self st st2 _ v hst2, hv]
          · have h1 := hih.2 p hlt (by omega)
            have h2 : goIndexI st2 (src + (p : Int)) = goIndexI st (src + (p : Int)) :=
              goIndexI_set_other st st2 (bp + (p0 : Int)) _ v hst2
                (by push_cast at hdisj ⊢; omega)
            rw [h1, h2]

/-- Successful walks of `indexAssignFrom` append exactly sidx get
events followed by one set event to the accumulated trace. -/
theorem indexAssignFrom_ok_trace (src : Object) (selectors : List Object) :
    ∀ (sidx : Nat) (dst : Object) (ev tr : List IAEvent),
      indexAssignFrom src selectors dst sidx ev = some (.ok (), tr) →
      ∃ rest, tr = ev ++ rest ∧ rest.length = sidx + 1 ∧
        rest.countP isGet = sidx ∧ rest.countP isSet = 1 ∧
        isSet (tr.getLastD (IAEvent.get .undefined .undefined)) = true := by
  intro sidx
  induction sidx with
  | zero =>
    intro dst ev tr h
    simp only [indexAssignFrom] at h
    cases hs : goIndexI selectors 0 with
    | none =>
      simp only [hs] at h
      exact absurd h (by simp)
    | some sel0 =>
      simp only [hs] at h
      cases hset : indexSet? dst sel0 src with
      | none =>
        simp only [hset] at h
        exact absurd h (by simp)
      | some r =>
        cases r with
        | error e =>
          simp only [hset] at h
          split at h <;> exact absurd h (by simp)
        | ok u =>
          simp only [hset] at h
          simp only [Option.some.injEq, Prod.mk.injEq] at h
          obtain ⟨-, htr⟩ := h
          subst htr
          refine ⟨[IAEvent.set dst sel0 src], rfl, rfl, rfl, rfl, ?_⟩
          rw [List.getLastD_concat]
          rfl
  | succ sidx ih =>
    intro dst ev tr h
    simp only [indexAssignFrom] at h
    cases hs : goIndexI selectors ((sidx : Int) + 1) with
    | none =>
      simp only [hs] at h
      exact absurd h (by simp)
    | some sel =>
      simp only [hs] at h
      cases hg : indexGet? dst sel with
      | none =>
        simp only [hg] at h
        exact absurd h (by simp)
      | some r =>
        cases r with
        | error e =>
          simp only [hg] at h
          split at h <;> exact absurd h (by simp)
        | ok next =>
          simp only [hg] at h
          obtain ⟨rest, htr, hlen, hcg, hcs, hlast⟩ := ih next (ev ++ [IAEvent.get dst sel]) tr h
          refine ⟨IAEvent.get dst sel :: rest, ?_, ?_, ?_, ?_, hlast⟩
          · rw [htr, List.append_assoc]
            rfl
          · simp [hlen]
          · simp [List.countP_cons, hcg, isGet]
          · simp [List.countP_cons, hcs, isSet]

/-- Claim C7: `indexAssign` with k >= 1 selectors walks them in
reverse: a successful assignment performs exactly k-1 IndexGet reads
followed by exactly one IndexSet (the trace has k events, k-1 of them
gets, 1 a set, and the last event is the set); a non-Indexable
intermediate stops the walk with the "not indexable" error, and a
non-IndexAssignable leaf stops it with the "not index-assignable"
error. -/
theorem c7_selector_chain (dst src : Object) (selectors : List Object) (k : Nat)
    (hk : selectors.length = k) (h1 : 1 ≤ k) :
    (∀ tr, indexAssign dst src selectors = some (.ok (), tr) →
      tr.length = k ∧ tr.countP isGet = k - 1 ∧ tr.countP isSet = 1 ∧
      isSet (tr.getLastD (IAEvent.get .undefined .undefined)) = true) ∧
    (∀ (d sel : Object) (sidx : Nat) (ev : List IAEvent),
      goIndexI selectors ((sidx : Int) + 1) = some sel → indexGet? d sel = none →
      indexAssignFrom src selectors d (sidx + 1) ev =
        some (.error ("not indexable: " ++ typeName d), ev)) ∧
    (∀ (d sel0 : Object) (ev : List IAEvent),
      goIndexI selectors 0 = some sel0 → indexSet? d sel0 src = none →
      indexAssignFrom src selectors d 0 ev =
        some (.error ("not index-assignable: " ++ typeName d), ev)) := by
  refine ⟨?_, ?_, ?_⟩
  · intro tr h
    unfold indexAssign at h
    rw [hk] at h
    obtain ⟨rest, htr, hlen, hcg, hcs, hlast⟩ :=
      indexAssignFrom_ok_trace src selectors (k - 1) dst [] tr h
    refine ⟨?_, ?_, ?_, hlast⟩
    · rw [htr]
      simp only [List.nil_append]
      omega
    · rw [htr]
      simp only [List.nil_append]
      exact hcg
    · rw [htr]
      simp only [List.nil_append]
      exact hcs
  · intro d sel sidx ev hsel hget
    simp only [indexAssignFrom, hsel, hget]
  · intro d sel0 ev hsel hset
    simp only [indexAssignFrom, hsel, hset]

/-- Claim C7 witness: the concrete chain m["a"][0] = 9 over
m = ("a" -> [0]) performs one get then one set. -/
theorem c7_selector_chain_witness :
    ([IAEvent.get c7dst (.str "a"),
      IAEvent.set (.array [.int 0]) (.int 0) (.int 9)] : List IAEvent).length = 2 ∧
    ([IAEvent.get c7dst (.str "a"),
      IAEvent.set (.array [.int 0]) (.int 0) (.int 9)] : List IAEvent).countP isGet = 1 ∧
    ([IAEvent.get c7dst (.str "a"),
      IAEvent.set (.array [.int 0]) (.int 0) (.int 9)] : List IAEvent).countP isSet = 1 := by
  have h := (c7_selector_chain c7dst (.int 9) c7sels 2 rfl (by decide)).1
    [IAEvent.get c7dst (.str "a"), IAEvent.set (.array [.int 0]) (.int 0) (.int 9)] rfl
  exact ⟨h.1, h.2.1, h.2.2.1⟩

/-- Reduction of the dispatch to the shared Closure/CompiledFunction
call body, for a decoded OpCall whose callee is a Closure (with some
free list) or a CompiledFunction. -/
theorem execStep_call (s : VM) (i : Int) (nArgs : Nat)
    (fn : CompiledFunction) (callee : Object)
    (hip : s.ip + 1 = i)
    (hop : goIndexI s.curInsts i = some Opcode.opCall)
    (hargs : goIndexI s.curInsts (i + 1) = some nArgs)
    (hcallee : goIndexI s.stack (s.sp - 1 - (nArgs : Int)) = some callee)
    (hkind : (∃ free, callee = .closure fn free) ∨ callee = .compiledFunction fn) :
    ∃ fr, execStep s = execCallFn s i nArgs fn fr := by
  rcases hkind with ⟨free, rfl⟩ | rfl
  · refine ⟨free, ?_⟩
    unfold execStep
    rw [hip]
    simp only [hop]
    norm_num
    unfold execCall
    simp only [hargs, hcallee]
  · refine ⟨[], ?_⟩
    unfold execStep
    rw [hip]
    simp only [hop]
    norm_num
    unfold execCall
    simp only [hargs, hcallee]

/-- Claim C2: an OpCall whose callee is the same function as the
current frame's (self-recursion, pointer equality on the
CompiledFunction), whose argument count equals the arity, and whose
next opcode is OpReturnValue — or OpPop immediately followed by
OpReturn — copies the argument handles into the current frame's
parameter slots, resets the instruction pointer to the start of the
frame, and pushes no frame: framesIndex and the frames array are
unchanged, so self-recursion at any depth never grows the frame
stack.  (The copy characterization assumes the parameter block lies
below the pushed arguments, which holds in every real frame since the
callee sits between them.) -/
theorem c2_tail_call_no_frame_push (s : VM) (i : Int) (nArgs : Nat)
    (fn : CompiledFunction) (callee : Object) (stk : List Object)
    (hip : s.ip + 1 = i)
    (hop : goIndexI s.curInsts i = some Opcode.opCall)
    (hargs : goIndexI s.curInsts (i + 1) = some nArgs)
    (hcallee : goIndexI s.stack (s.sp - 1 - (nArgs : Int)) = some callee)
    (hkind : (∃ free, callee = .closure fn free) ∨ callee = .compiledFunction fn)
    (hfid : fn.fid = (curFrameD s).fn.fid)
    (harity : (nArgs : Int) = fn.numParameters)
    (htail : tailCallNext s.curInsts (i + 1) = some true)
    (hcopy : copyArgs s.stack (curFrameD s).basePointer (s.sp - (nArgs : Int)) nArgs = some stk)
    (hdisj : (curFrameD s).basePointer + (nArgs : Int) ≤ s.sp - (nArgs : Int)) :
    execStep s = .next { s with stack := stk, sp := s.sp - ((nArgs : Int) + 1), ip := -1 } ∧
    stepFramesIndex (execStep s) = some s.framesIndex ∧
    stepFrames (execStep s) = some s.frames ∧
    (∀ p : Nat, p < nArgs →
      goIndexI stk ((curFrameD s).basePointer + (p : Int)) =
        goIndexI s.stack (s.sp - (nArgs : Int) + (p : Int))) := by
  obtain ⟨fr, hstep⟩ := execStep_call s i nArgs fn callee hip hop hargs hcallee hkind
  have hres : execCallFn s i nArgs fn fr =
      .next { s with stack := stk, sp := s.sp - ((nArgs : Int) + 1), ip := -1 } := by
    unfold execCallFn
    rw [if_neg (not_not_intro harity), if_pos hfid]
    simp only [htail, hcopy]
  have hcopy' : copyArgsAux (curFrameD s).basePointer (s.sp - (nArgs : Int)) 0 nArgs s.stack
      = some stk := hcopy
  have hchar := (copyArgsAux_spec (curFrameD s).basePointer (s.sp - (nArgs : Int))
    nArgs 0 s.stack stk hcopy' (by push_cast; omega)).2
  refine ⟨hstep.trans hres, ?_, ?_, ?_⟩
  · rw [hstep, hres]; rfl
  · rw [hstep, hres]; rfl
  · intro p hp
    have := hchar p (Nat.zero_le p) (by omega)
    simpa using this

/-- Claim C2 witness: the concrete self-recursive tail call rewrites
the parameter slot in place, drops callee and argument, resets ip, and
leaves framesIndex at 1. -/
theorem c2_tail_call_no_frame_push_witness :
    execStep c2ex = .next { c2ex with stack := [.int 8, .closure c2fn [], .int 8], sp := 1, ip := -1 } ∧
    stepFramesIndex (execStep c2ex) = some 1 := by
  have h := c2_tail_call_no_frame_push c2ex 0 1 c2fn (.closure c2fn [])
    [.int 8, .closure c2fn [], .int 8]
    rfl rfl rfl rfl (Or.inl ⟨[], rfl⟩) rfl rfl rfl rfl (by decide)
  exact ⟨h.1, h.2.1⟩

/-- Claim C1 (as the code actually behaves): a decoded OpCall on a
Closure/CompiledFunction callee with matching arity, not a self
tail-call, executed with all MaxFrames frames in use, dies with the Go
index-out-of-range panic at `v.frames[v.framesIndex]` — there is no
MaxFrames guard in Run — and in particular does NOT return a RunError
(so not ErrStackOverflow). -/
theorem c1_call_frame_overflow_faults (s : VM) (i : Int) (nArgs : Nat)
    (fn : CompiledFunction) (callee : Object) (curF : Frame)
    (hip : s.ip + 1 = i)
    (hop : goIndexI s.curInsts i = some Opcode.opCall)
    (hargs : goIndexI s.curInsts (i + 1) = some nArgs)
    (hcallee : goIndexI s.stack (s.sp - 1 - (nArgs : Int)) = some callee)
    (hkind : (∃ free, callee = .closure fn free) ∨ callee = .compiledFunction fn)
    (harity : (nArgs : Int) = fn.numParameters)
    (hnotself : fn.fid ≠ (curFrameD s).fn.fid)
    (hcf : goIndexI s.frames (s.framesIndex - 1) = some curF)
    (hmax : s.framesIndex = MaxFrames)
    (hlen : (s.frames.length : Int) = MaxFrames) :
    execStep s = .fatal "index out of range" ∧ ∀ e, execStep s ≠ .error e := by
  obtain ⟨fr, hstep⟩ := execStep_call s i nArgs fn callee hip hop hargs hcallee hkind
  have hm : s.framesIndex = 1024 := hmax.trans rfl
  have hl : (s.frames.length : Int) = 1024 := hlen.trans rfl
  have hpush : execCallFn s i nArgs fn fr = pushFrame s i nArgs fn fr := by
    unfold execCallFn
    rw [if_neg (not_not_intro harity), if_neg hnotself]
  have hfault : pushFrame s i nArgs fn fr = .fatal "index out of range" := by
    unfold pushFrame
    simp only [hcf]
    have h1 := goSetI_eq_some s.frames (s.framesIndex - 1) { curF with ip := i + 1 }
      (by omega) (by omega)
    simp only [h1]
    have h2 : goIndexI (s.frames.set (s.framesIndex - 1).toNat { curF with ip := i + 1 })
        s.framesIndex = none := by
      apply goIndexI_none
      simp only [List.length_set]
      omega
    simp only [h2]
  have hall : execStep s = .fatal "index out of range" := (hstep.trans hpush).trans hfault
  exact ⟨hall, fun e he => by rw [hall] at he; exact StepResult.noConfusion he⟩

set_option maxRecDepth 20000 in
/-- Claim C1 witness: the concrete 1024-frames-in-use state faults
instead of returning ErrStackOverflow. -/
theorem c1_call_frame_overflow_faults_witness :
    execStep c1ex = .fatal "index out of range" ∧
    execStep c1ex ≠ .error RunError.stackOverflow := by
  have h := c1_call_frame_overflow_faults c1ex 0 0 c1fnCallee (.closure c1fnCallee [])
    { fn := c1fnCaller, freeVars := [], ip := 0, basePointer := 0 }
    rfl rfl rfl rfl (Or.inl ⟨[], rfl⟩) rfl (by decide) rfl rfl
    (by simp [c1ex, exVM, MaxFrames])
  exact ⟨h.1, h.2 RunError.stackOverflow⟩

/-- Claim C6 counterexample: the claim as stated is false — after the
concrete one-argument frame push (callee has NumLocals = 2), the
callee's local slot 1 (stack position basePointer + 1 = 2) still holds
the previously-resident value 42, not Undefined: the frame push writes
nothing to the stack. -/
theorem c6_counterexample :
    stepStack (execStep c6ex) = some [.closure c6fn [], .int 5, .int 42] ∧
    goIndexI [Object.closure c6fn [], Object.int 5, Object.int 42] 2 = some (.int 42) ∧
    Object.int 42 ≠ Object.undefined := by
  exact ⟨rfl, rfl, fun h => Object.noConfusion h⟩

/-- Claim C6 (amended): for a non-tail call of a Closure or
CompiledFunction of arity N with N arguments, the new frame's base
pointer is sp - N and the operand stack is NOT written at all, so
local slots 0..N-1 are exactly the already-pushed argument handles
(aliased, not copied); slots N..NumLocals-1 are left holding the
previously-resident stack contents — they are NOT initialized to
Undefined (the compiler guarantees DefineLocal before any read).  sp
advances to basePointer + NumLocals and framesIndex increases by 1. -/
theorem c6_frame_locals_amended (s : VM) (i : Int) (nArgs : Nat)
    (fn : CompiledFunction) (callee : Object) (curF : Frame)
    (hip : s.ip + 1 = i)
    (hop : goIndexI s.curInsts i = some Opcode.opCall)
    (hargs : goIndexI s.curInsts (i + 1) = some nArgs)
    (hcallee : goIndexI s.stack (s.sp - 1 - (nArgs : Int)) = some callee)
    (hkind : (∃ free, callee = .closure fn free) ∨ callee = .compiledFunction fn)
    (harity : (nArgs : Int) = fn.numParameters)
    (hnotself : fn.fid ≠ (curFrameD s).fn.fid)
    (hcf : goIndexI s.frames (s.framesIndex - 1) = some curF)
    (h0 : 0 ≤ s.framesIndex - 1)
    (hfi : s.framesIndex < (s.frames.length : Int)) :
    stepStack (execStep s) = some s.stack ∧
    stepFramesIndex (execStep s) = some (s.framesIndex + 1) ∧
    stepSp (execStep s) = some (s.sp - (nArgs : Int) + fn.numLocals) ∧
    stepIp (execStep s) = some (-1) ∧
    ((stepFrames (execStep s)).bind (fun fs => goIndexI fs s.framesIndex)).map
        (fun fr2 => (fr2.fn.fid, fr2.basePointer)) = some (fn.fid, s.sp - (nArgs : Int)) ∧
    stepCurInsts (execStep s) = some fn.instructions := by
  obtain ⟨fr, hstep⟩ := execStep_call s i nArgs fn callee hip hop hargs hcallee hkind
  have hpush : execCallFn s i nArgs fn fr = pushFrame s i nArgs fn fr := by
    unfold execCallFn
    rw [if_neg (not_not_intro harity), if_neg hnotself]
  have h1 := goSetI_eq_some s.frames (s.framesIndex - 1) { curF with ip := i + 1 }
    h0 (by omega)
  obtain ⟨slot, h2⟩ := goIndexI_exists
    (s.frames.set (s.framesIndex - 1).toNat { curF with ip := i + 1 }) s.framesIndex
    (by omega) (by simp only [List.length_set]; omega)
  have h3 := goSetI_eq_some (s.frames.set (s.framesIndex - 1).toNat { curF with ip := i + 1 })
    s.framesIndex
    { slot with fn := fn, freeVars := fr, basePointer := s.sp - (nArgs : Int) }
    (by omega) (by simp only [List.length_set]; omega)
  have hfin : pushFrame s i nArgs fn fr = .next { s with
      frames := (s.frames.set (s.framesIndex - 1).toNat { curF with ip := i + 1 }).set
        s.framesIndex.toNat { slot with fn := fn, freeVars := fr, basePointer := s.sp - (nArgs : Int) },
      framesIndex := s.framesIndex + 1,
      curInsts := fn.instructions,
      curIPLimit := (fn.instructions.length : Int) - 1,
      ip := -1,
      sp := s.sp - (nArgs : Int) + fn.numLocals } := by
    unfold pushFrame
    simp only [hcf, h1, h2, h3]
  have hall := (hstep.trans hpush).trans hfin
  refine ⟨?_, ?_, ?_, ?_, ?_, ?_⟩
  · rw [hall]; rfl
  · rw [hall]; rfl
  · rw [hall]; rfl
  · rw [hall]; rfl
  · rw [hall]
    have h4 := goIndexI_set_self _ _ s.framesIndex
      { slot with fn := fn, freeVars := fr, basePointer := s.sp - (nArgs : Int) } h3
    simp only [stepFrames, stepState, Option.map_some', Option.some_bind]
    rw [h4]
    simp only [Option.map_some']
  · rw [hall]; rfl

/-- Claim C6 witness: the concrete one-argument frame push via the
amended theorem — stack untouched (slot 1 aliases the argument 5),
framesIndex 1 to 2, sp = basePointer + NumLocals = 3. -/
theorem c6_frame_locals_amended_witness :
    stepStack (execStep c6ex) = some c6ex.stack ∧
    stepFramesIndex (execStep c6ex) = some 2 ∧
    stepSp (execStep c6ex) = some 3 ∧
    ((stepFrames (execStep c6ex)).bind (fun fs => goIndexI fs 1)).map
        (fun fr2 => (fr2.fn.fid, fr2.basePointer)) = some (4, 1) := by
  have h := c6_frame_locals_amended c6ex 0 1 c6fn (.closure c6fn [])
    { fn := c6caller, freeVars := [], ip := 0, basePointer := 0 }
    rfl rfl rfl rfl (Or.inl ⟨[], rfl⟩) rfl (by decide) rfl (by decide) (by decide)
  exact ⟨h.1, h.2.1, h.2.2.1, h.2.2.2.2.1⟩

/-- Claim C8 witness: the concrete one-pair state via the amended
theorem. -/
theorem c8_opmap_amended_witness :
    execStep c8ex = .next { c8ex with stack := [.map [("a", .int 1)], .int 1], sp := 1, ip := 2 } ∧
    ([("a", Object.int 1)] : List (String × Object)).length = 1 := by
  have h := c8_opmap_amended c8ex 0 2 1 [("a", .int 1)] [.map [("a", .int 1)], .int 1]
    rfl rfl rfl rfl rfl (by decide) rfl
  exact h

/-- Claim C4: Run clears the abort flag on entry (the reset block),
and from any state in which the abort flag is set the dispatch loop
exits before executing another instruction, Run returns with no error
(`ok`) with the state — in particular the operand stack — exactly as
it was, and the post-run empty-stack check is skipped. -/
theorem c4_abort_clean_exit :
    (∀ (v s : VM), runReset v = some s → s.aborting = false) ∧
    (∀ (fuel : Nat) (s : VM), s.aborting = true → runLoop (fuel + 1) s = .ok s) := by
  constructor
  · intro v s h
    unfold runReset at h
    cases hg : goIndexI v.frames 0 <;> rw [hg] at h
    · simp at h
    · simp only [Option.some.injEq] at h
      subst h
      rfl
  · intro fuel s h
    simp [runLoop, finishRun, h]

/-- Claim C4 witness: a concretely aborted mid-execution state exits
the loop at once with a clean `ok` and its non-empty stack intact. -/
theorem c4_abort_clean_exit_witness :
    runLoop 1 { c5exA with aborting := true } = .ok { c5exA with aborting := true } ∧
    runReset exVM = some { exVM with sp := 0, framesIndex := 1, ip := -1, aborting := false } ∧
    ({ exVM with sp := 0, framesIndex := 1, ip := -1, aborting := false } : VM).aborting = false := by
  refine ⟨c4_abort_clean_exit.2 0 _ rfl, rfl, c4_abort_clean_exit.1 exVM _ rfl⟩

/-- Claim C3: if the loop returns `ok` (Run returned nil) and the
abort flag is unset, the stack pointer is 0 at exit (sp is a Go int;
its non-negativity, maintained by every compiled program, is taken as
a hypothesis, since the source check is literally `v.sp > 0`); and a
loop exit with a positive sp and no abort is the fatal
non-empty-stack panic, not a returned error. -/
theorem c3_clean_exit_sp_zero :
    (∀ (fuel : Nat) (s t : VM), runLoop fuel s = .ok t → t.aborting = false →
      0 ≤ t.sp → t.sp = 0) ∧
    (∀ (fuel : Nat) (s : VM), ¬ s.ip < s.curIPLimit → s.aborting = false → 0 < s.sp →
      runLoop (fuel + 1) s = .fatal "non empty stack after execution") := by
  constructor
  · intro fuel
    induction fuel with
    | zero =>
      intro s t h
      simp [runLoop] at h
    | succ n ih =>
      intro s t h ha hsp
      simp only [runLoop] at h
      split at h
      · split at h
        · exact ih _ _ h ha hsp
        · simp at h
        · simp at h
        · simp at h
      · unfold finishRun at h
        split at h
        · simp at h
        · rename_i hcond
          simp only [Outcome.ok.injEq] at h
          subst h
          rw [not_and] at hcond
          by_contra hne
          exact hcond (lt_of_le_of_ne hsp (Ne.symm hne)) ha
  · intro fuel s hip ha hsp
    simp [runLoop, finishRun, hip, ha, hsp]

/-- Claim C3 witness: a state at its instruction limit with sp = 2 and
abort unset panics; and a clean run of a state with sp left at 0
satisfies the first conjunct trivially. -/
theorem c3_clean_exit_sp_zero_witness :
    runLoop 1 { exVM with sp := 2, ip := 0 } = .fatal "non empty stack after execution" ∧
    ({ exVM with sp := 2, ip := 0 } : VM).sp = 2 := by
  refine ⟨c3_clean_exit_sp_zero.2 0 _ (by decide) rfl (by decide), rfl⟩

end TengoVM
